import Mathlib

/-!
Shallow embedding of the print-preview repository's frame-discovery and
frame-store logic.

Sources embedded here:
* `src/imageService.ts` — `getImageUrl`, `imageExists`, `findRecentImages`
  (the probe-based Frame Discovery Engine).
* the hybrid live view (`loadImages` merge updater, `stopFeed`, timers) —
  the Frame Sequence Store merge and the stop/refresh state.
* `src/hooks/useOneDriveImages.ts` — the listing-based grouping variant.
* the live-loop view — `LOOP_COUNT` window and the safe loop index.

The network environment is modelled by an oracle `outcomes : Nat → ProbeOutcome`
assigning to each candidate minute the way its image-load attempt resolves
(`Image.onload` fires, or `Image.onerror` fires for one of several reasons).
`imageExists` in the source always resolves its promise to a `Bool`
(`onload => true`, `onerror => false`), which is what `imageExists` below
computes from the oracle's outcome.
-/

/-- Printer identifiers, from `export type PrinterId = 'h2c' | 'h2d'`. -/
inductive PrinterId where
  | h2c
  | h2d
deriving DecidableEq

/-- Render a `PrinterId` the way it appears in URLs. -/
def PrinterId.str : PrinterId → String
  | .h2c => "h2c"
  | .h2d => "h2d"

/-- `BASE_URL` constant from `src/imageService.ts`. -/
def BASE_URL : String :=
  "https://res.cloudinary.com/dh1i2mqa6/image/upload/v1770469171/bambu"

/-- `getImageUrl(printer, minute)` builds the candidate locator
`BASE_URL/printer_minute.jpg`. -/
def getImageUrl (printer : PrinterId) (minute : Nat) : String :=
  BASE_URL ++ "/" ++ printer.str ++ "_" ++ toString minute ++ ".jpg"

/-- A discovered frame, `{ minute: number; url: string }` in the source. -/
structure Frame where
  minute : Nat
  url : String
deriving DecidableEq, Repr

/-- How a probe's image-load attempt resolves: `loaded` means the `onload`
handler fires; all other constructors are reasons the `onerror` handler
fires (missing resource / non-2xx, network failure, undecodable payload). -/
inductive ProbeOutcome where
  | loaded
  | notFound
  | networkFailure
  | malformed
deriving DecidableEq

/-- `imageExists` resolves to `true` exactly when the image loads; every
error path resolves to `false` (the promise in the source never rejects). -/
def imageExists (o : ProbeOutcome) : Bool :=
  match o with
  | .loaded => true
  | _ => false

/-- The body of the `for (let m = startMinute; m >= 0 && results.length < count; m--)`
loop of `findRecentImages`, restricted to the `m ≥ 0` range so that `m` can
be a `Nat` (the wrapper below handles negative `startMinute`).  Returns the
accumulated `results` array together with the list of minutes probed, in
probe order.  On a hit the frame is pushed and the consecutive-miss counter
resets; on a miss the counter increments and the loop breaks once it
reaches `maxGap`. -/
def scanLoopN (probe : Nat → Bool) (url : Nat → String) (count maxGap : Nat)
    (m : Nat) (results : List Frame) (misses : Nat) : List Frame × List Nat :=
  if results.length < count then
    if probe m then
      let results' := results ++ [⟨m, url m⟩]
      match m with
      | 0 => (results', [0])
      | m' + 1 =>
          let rest := scanLoopN probe url count maxGap m' results' 0
          (rest.1, (m' + 1) :: rest.2)
    else if misses + 1 ≥ maxGap then (results, [m])
    else
      match m with
      | 0 => (results, [0])
      | m' + 1 =>
          let rest := scanLoopN probe url count maxGap m' results (misses + 1)
          (rest.1, (m' + 1) :: rest.2)
  else (results, [])

/-- `findRecentImages(printer, startMinute, count, maxGap)` before the final
`reverse`: the pushed results (newest first) paired with the trace of probed
minutes.  A negative `startMinute` fails the loop guard immediately. -/
def findRecentImagesPair (printer : PrinterId) (startMinute : Int)
    (count maxGap : Nat) (outcomes : Nat → ProbeOutcome) :
    List Frame × List Nat :=
  if startMinute < 0 then ([], [])
  else
    scanLoopN (fun m => imageExists (outcomes m)) (getImageUrl printer)
      count maxGap startMinute.toNat [] 0

/-- `findRecentImages`: the discovery scan's return value,
`results.reverse()` (oldest first). -/
def findRecentImages (printer : PrinterId) (startMinute : Int)
    (count maxGap : Nat) (outcomes : Nat → ProbeOutcome) : List Frame :=
  (findRecentImagesPair printer startMinute count maxGap outcomes).1.reverse

/-- The minutes probed by a `findRecentImages` scan, in probe order
(the scan's observable interaction with the Existence Probe). -/
def probedMinutes (printer : PrinterId) (startMinute : Int)
    (count maxGap : Nat) (outcomes : Nat → ProbeOutcome) : List Nat :=
  (findRecentImagesPair printer startMinute count maxGap outcomes).2

/-- Ascending sort by minute, `[...].sort((a, b) => a.minute - b.minute)`.
JavaScript's `Array.prototype.sort` is stable, as is insertion sort. -/
def sortByMinute (l : List Frame) : List Frame :=
  List.insertionSort (fun a b => a.minute ≤ b.minute) l

/-- The newly discovered frames whose minutes are not already in `prev`:
`images.filter((f) => !existingMinutes.has(f.minute))` where
`existingMinutes = new Set(prev.map((f) => f.minute))`. -/
def additions (prev images : List Frame) : List Frame :=
  images.filter (fun f => ! decide (f.minute ∈ prev.map Frame.minute))

/-- The `setFrames` updater of `loadImages` in the live views: on a refresh
(`!isInitial`) with a non-empty store, keep existing frames, append the
newly discovered ones and re-sort ascending, returning `prev` itself when
nothing is new (so React sees no state change); otherwise replace. -/
def mergeFrames (prev images : List Frame) (isInitial : Bool) : List Frame :=
  if isInitial = false ∧ 0 < prev.length then
    if (additions prev images).length = 0 then prev
    else sortByMinute (prev ++ additions prev images)
  else images

/-- `const LOOP_COUNT = 10` — the live-loop window size. -/
def LOOP_COUNT : Nat := 10

/-- `frames.slice(-LOOP_COUNT)` — the last up-to-`LOOP_COUNT` frames. -/
def loopWindow (frames : List Frame) : List Frame :=
  frames.drop (frames.length - LOOP_COUNT)

/-- `loopFrames.length > 0 ? loopIndex % loopFrames.length : 0`. -/
def safeIndex (loopIndex : Nat) (loopFrames : List Frame) : Nat :=
  if 0 < loopFrames.length then loopIndex % loopFrames.length else 0

/-- The loop-advance timer body, `(prev + 1) % loopFrames.length`. -/
def loopAdvance (prev loopLen : Nat) : Nat :=
  (prev + 1) % loopLen

/-!  Listing-based discovery, from `src/hooks/useOneDriveImages.ts`. -/

/-- A listing entry: `{ name; '@content.downloadUrl'?; '@microsoft.graph.downloadUrl'? }`.
The two optional URL fields are renamed to legal Lean identifiers. -/
structure OneDriveChild where
  name : String
  contentDownloadUrl : Option String
  graphDownloadUrl : Option String
deriving DecidableEq

/-- `{ name: string; frames: string[] }` — one printer's discovered frames. -/
structure PrinterImages where
  name : String
  frames : List String
deriving DecidableEq

/-- `child['@content.downloadUrl'] || child['@microsoft.graph.downloadUrl'] || ''`:
JavaScript `||` skips `undefined` and the empty string (both falsy). -/
def downloadUrl (c : OneDriveChild) : String :=
  let a := c.contentDownloadUrl.getD ""
  if a = "" then c.graphDownloadUrl.getD "" else a

/-- Characters that JavaScript's `.` (no `s` flag) does not match:
LF, CR, U+2028 LINE SEPARATOR, U+2029 PARAGRAPH SEPARATOR. -/
def isLineTerminator (c : Char) : Bool :=
  c == '\n' || c == '\r' || c.toNat == 0x2028 || c.toNat == 0x2029

/-- Decimal digits to a number, as `parseInt(match[2], 10)` computes it. -/
def digitsToNat (ds : List Char) : Nat :=
  ds.foldl (fun acc c => acc * 10 + (c.toNat - '0'.toNat)) 0

/-- Match `name` against `/^(.+)-(\d+)\.jpg$/i` and return the two capture
groups `(printerName, frameNumber)`.  The name must end in `.jpg`
(case-insensitive); with the extension stripped, the greedy `(.+)` makes the
match split at the last `-` whose suffix is all digits, so the digit group
is exactly the maximal digit run at the end of the stem, the character
before it must be `-`, and the part before that `-` must be non-empty (and,
since `.` matches no line terminator, free of line terminators). -/
def parseName (name : String) : Option (String × Nat) :=
  let cs := name.toList
  if 4 ≤ cs.length then
    if (cs.drop (cs.length - 4)).map Char.toLower = ['.', 'j', 'p', 'g'] then
      let stem := cs.take (cs.length - 4)
      let rev := stem.reverse
      let ds := rev.takeWhile Char.isDigit
      match rev.dropWhile Char.isDigit with
      | '-' :: pRev =>
          if ds ≠ [] ∧ pRev ≠ [] ∧ pRev.all (fun c => ! isLineTerminator c) then
            some (String.mk pRev.reverse, digitsToNat ds.reverse)
          else none
      | _ => none
    else none
  else none

/-- Insert an entry into the `Map`-backed grouping: `Map` keys keep
insertion order and `push` appends at the end of a key's array. -/
def addToGroup (acc : List (String × List (Nat × String)))
    (pname : String) (entry : Nat × String) :
    List (String × List (Nat × String)) :=
  if acc.any (fun g => g.1 = pname) then
    acc.map (fun g => if g.1 = pname then (g.1, g.2 ++ [entry]) else g)
  else acc ++ [(pname, [entry])]

/-- The grouping loop of `useOneDriveImages`: skip entries whose name does
not match the pattern, skip entries with no (non-empty) download URL, and
push `{ num, url }` into the printer's group. -/
def collectGroups (children : List OneDriveChild) :
    List (String × List (Nat × String)) :=
  children.foldl
    (fun acc child =>
      match parseName child.name with
      | none => acc
      | some pn =>
          let url := downloadUrl child
          if url = "" then acc
          else addToGroup acc pn.1 (pn.2, url))
    []

/-- `frames.sort((a, b) => a.num - b.num)` — ascending, stable. -/
def sortByNum (l : List (Nat × String)) : List (Nat × String) :=
  List.insertionSort (fun a b => a.1 ≤ b.1) l

/-- Lexicographic comparison of character sequences by codepoint. -/
def charListLe : List Char → List Char → Bool
  | [], _ => true
  | _ :: _, [] => false
  | a :: as, b :: bs =>
    if a.toNat < b.toNat then true
    else if b.toNat < a.toNat then false
    else charListLe as bs

/-- `result.sort((a, b) => a.name.localeCompare(b.name))`, modelled as the
codepoint order on names (`localeCompare` agrees with it on the plain ASCII
names this repository uses). -/
def sortByName (l : List PrinterImages) : List PrinterImages :=
  List.insertionSort (fun a b => charListLe a.name.toList b.name.toList = true) l

/-- The value `setPrinters` receives once the listing fetch resolves:
each group's frames sorted ascending by frame number and projected to
their URLs, the groups sorted by printer name. -/
def buildPrinters (children : List OneDriveChild) : List PrinterImages :=
  sortByName
    ((collectGroups children).map
      (fun g => PrinterImages.mk g.1 ((sortByNum g.2).map Prod.snd)))

/-- The resolution of the listing fetch as the `useEffect` closure applies
it: `if (cancelled) return;` guards the store write, so a fetch that
resolves after unmount leaves `printers` untouched. -/
def resolveListing (cancelled : Bool) (printers : List PrinterImages)
    (children : List OneDriveChild) : List PrinterImages :=
  if cancelled then printers else buildPrinters children

/-!  The hybrid live view's stop/refresh state (the view owning
`findRecentImages` discovery, its 60-second refresh interval and its
playback interval). -/

/-- The view state observable around a stop/late-resolution interleaving:
the frame store, the `live` and `playing` flags, and whether each timer
(refresh interval, playback advance interval) is currently set. -/
structure ViewState where
  frames : List Frame
  live : Bool
  playing : Bool
  refreshTimer : Bool
  advanceTimer : Bool
deriving DecidableEq

/-- `stopFeed`: `setLive(false); setPlaying(false); clearInterval(refreshRef)`;
flipping `playing` to `false` makes the playback effect's cleanup clear the
advance interval as well. -/
def stopFeed (s : ViewState) : ViewState :=
  { s with live := false, playing := false,
           refreshTimer := false, advanceTimer := false }

/-- A `loadImages(false)` call resolving: the `setFrames` merge updater runs
unconditionally — `loadImages` checks no cancellation flag — and the
effects re-evaluate their timer conditions (`live` for the refresh
interval, `playing && frames.length > 1` for the advance interval). -/
def resolveLoad (s : ViewState) (images : List Frame) : ViewState :=
  let frames' := mergeFrames s.frames images false
  { frames := frames', live := s.live, playing := s.playing,
    refreshTimer := s.live,
    advanceTimer := s.playing && decide (1 < frames'.length) }

/-!  The strict-ascending invariant of Frame Sequences (spec section 3). -/

def StrictAsc (l : List Frame) : Prop :=
  l.Pairwise (fun a b => a.minute < b.minute)

instance : IsTotal Frame (fun a b => a.minute ≤ b.minute) :=
  ⟨fun a b => Nat.le_total a.minute b.minute⟩

instance : IsTrans Frame (fun a b => a.minute ≤ b.minute) :=
  ⟨fun _ _ _ h h' => Nat.le_trans h h'⟩

instance (l : List Frame) : Decidable (StrictAsc l) :=
  inferInstanceAs (Decidable (l.Pairwise fun a b : Frame => a.minute < b.minute))

/-!  Concrete inputs used by the claim theorems and their witnesses. -/

/-- Probe environment of the gap-termination scenario: the image exists
exactly at minutes 95, 94 and 90. -/
def c1Outcomes : Nat → ProbeOutcome := fun m =>
  if m = 95 ∨ m = 94 ∨ m = 90 then .loaded else .notFound

/-- Probe environment where hits and misses alternate (hit at even
minutes): each hit resets the consecutive-miss counter and lets the scan
continue. -/
def c2AlternatingOutcomes : Nat → ProbeOutcome := fun m =>
  if m % 2 = 0 then .loaded else .notFound

/-- The store of the spec's merge-correctness example. -/
def c5Prev : List Frame := [⟨10, "a"⟩, ⟨12, "b"⟩]

/-- The discovery result of the spec's merge-correctness example. -/
def c5Images : List Frame := [⟨11, "c"⟩, ⟨12, "b"⟩, ⟨13, "d"⟩]

/-- Probe environment with a single hit at minute 4 and network failures
elsewhere. -/
def c6Outcomes : Nat → ProbeOutcome := fun x =>
  if x = 4 then .loaded else .networkFailure

/-- The listing entries of the grouping example. -/
def c8Children : List OneDriveChild :=
  [⟨"h2c-3.jpg", some "u3", none⟩, ⟨"h2c-1.jpg", some "u1", none⟩,
   ⟨"h2d-2.jpg", some "u2", none⟩]

/-- A pattern-matching listing entry that carries neither download-URL
field. -/
def c9Child : OneDriveChild := ⟨"h2c-7.jpg", none, none⟩

/-- A two-frame store for the live-loop-window witness. -/
def c7Frames : List Frame := [⟨3, "a"⟩, ⟨9, "b"⟩]

/-- A live view holding one frame, with its refresh timer running. -/
def c4State : ViewState := ⟨[⟨5, "u5"⟩], true, false, true, false⟩

/-!  Helper lemmas: unfolding equations and invariants of the scan loop. -/

theorem scanLoopN_stop (probe : Nat → Bool) (url : Nat → String) (count maxGap m : Nat)
    (r : List Frame) (ms : Nat) (h : count ≤ r.length) :
    scanLoopN probe url count maxGap m r ms = (r, []) := by
  rw [scanLoopN.eq_def]
  rw [if_neg (by omega)]

theorem scanLoopN_zero_hit (probe : Nat → Bool) (url : Nat → String) (count maxGap : Nat)
    (r : List Frame) (ms : Nat) (h1 : r.length < count) (hp : probe 0 = true) :
    scanLoopN probe url count maxGap 0 r ms = (r ++ [⟨0, url 0⟩], [0]) := by
  rw [scanLoopN.eq_def, if_pos h1, if_pos hp]

theorem scanLoopN_zero_missStop (probe : Nat → Bool) (url : Nat → String) (count maxGap : Nat)
    (r : List Frame) (ms : Nat) (h1 : r.length < count) (hp : probe 0 = false)
    (hg : maxGap ≤ ms + 1) :
    scanLoopN probe url count maxGap 0 r ms = (r, [0]) := by
  rw [scanLoopN.eq_def, if_pos h1, if_neg (by simp [hp]), if_pos hg]

theorem scanLoopN_zero_missCont (probe : Nat → Bool) (url : Nat → String) (count maxGap : Nat)
    (r : List Frame) (ms : Nat) (h1 : r.length < count) (hp : probe 0 = false)
    (hg : ms + 1 < maxGap) :
    scanLoopN probe url count maxGap 0 r ms = (r, [0]) := by
  rw [scanLoopN.eq_def, if_pos h1, if_neg (by simp [hp]), if_neg (by omega)]

theorem scanLoopN_succ_hit (probe : Nat → Bool) (url : Nat → String) (count maxGap m : Nat)
    (r : List Frame) (ms : Nat) (h1 : r.length < count) (hp : probe (m + 1) = true) :
    scanLoopN probe url count maxGap (m + 1) r ms =
      ((scanLoopN probe url count maxGap m (r ++ [⟨m + 1, url (m + 1)⟩]) 0).1,
       (m + 1) :: (scanLoopN probe url count maxGap m (r ++ [⟨m + 1, url (m + 1)⟩]) 0).2) := by
  rw [scanLoopN.eq_def, if_pos h1, if_pos hp]

theorem scanLoopN_succ_missStop (probe : Nat → Bool) (url : Nat → String) (count maxGap m : Nat)
    (r : List Frame) (ms : Nat) (h1 : r.length < count) (hp : probe (m + 1) = false)
    (hg : maxGap ≤ ms + 1) :
    scanLoopN probe url count maxGap (m + 1) r ms = (r, [m + 1]) := by
  rw [scanLoopN.eq_def, if_pos h1, if_neg (by simp [hp]), if_pos hg]

theorem scanLoopN_succ_missCont (probe : Nat → Bool) (url : Nat → String) (count maxGap m : Nat)
    (r : List Frame) (ms : Nat) (h1 : r.length < count) (hp : probe (m + 1) = false)
    (hg : ms + 1 < maxGap) :
    scanLoopN probe url count maxGap (m + 1) r ms =
      ((scanLoopN probe url count maxGap m r (ms + 1)).1,
       (m + 1) :: (scanLoopN probe url count maxGap m r (ms + 1)).2) := by
  rw [scanLoopN.eq_def, if_pos h1, if_neg (by simp [hp]), if_neg (by omega)]

theorem scan_acc_le (probe : Nat → Bool) (url : Nat → String) (count maxGap : Nat)
    (m : Nat) (r : List Frame) (ms : Nat) :
    r.length ≤ (scanLoopN probe url count maxGap m r ms).1.length := by
  induction m generalizing r ms with
  | zero =>
    by_cases h1 : r.length < count
    · cases hp : probe 0 with
      | true => simp [scanLoopN_zero_hit probe url count maxGap r ms h1 hp]
      | false =>
        by_cases hg : maxGap ≤ ms + 1
        · simp [scanLoopN_zero_missStop probe url count maxGap r ms h1 hp hg]
        · simp [scanLoopN_zero_missCont probe url count maxGap r ms h1 hp (by omega)]
    · simp [scanLoopN_stop probe url count maxGap 0 r ms (by omega)]
  | succ m' ih =>
    by_cases h1 : r.length < count
    · cases hp : probe (m' + 1) with
      | true =>
        rw [scanLoopN_succ_hit probe url count maxGap m' r ms h1 hp]
        have := ih (r ++ [⟨m' + 1, url (m' + 1)⟩]) 0
        simp at this ⊢
        omega
      | false =>
        by_cases hg : maxGap ≤ ms + 1
        · simp [scanLoopN_succ_missStop probe url count maxGap m' r ms h1 hp hg]
        · rw [scanLoopN_succ_missCont probe url count maxGap m' r ms h1 hp (by omega)]
          simpa using ih r (ms + 1)
    · simp [scanLoopN_stop probe url count maxGap (m' + 1) r ms (by omega)]

theorem scan_len_le (probe : Nat → Bool) (url : Nat → String) (count maxGap : Nat)
    (m : Nat) (r : List Frame) (ms : Nat) (h : r.length ≤ count) :
    (scanLoopN probe url count maxGap m r ms).1.length ≤ count := by
  induction m generalizing r ms with
  | zero =>
    by_cases h1 : r.length < count
    · cases hp : probe 0 with
      | true => simp [scanLoopN_zero_hit probe url count maxGap r ms h1 hp]; omega
      | false =>
        by_cases hg : maxGap ≤ ms + 1
        · simp [scanLoopN_zero_missStop probe url count maxGap r ms h1 hp hg, h]
        · simp [scanLoopN_zero_missCont probe url count maxGap r ms h1 hp (by omega), h]
    · simp [scanLoopN_stop probe url count maxGap 0 r ms (by omega), h]
  | succ m' ih =>
    by_cases h1 : r.length < count
    · cases hp : probe (m' + 1) with
      | true =>
        rw [scanLoopN_succ_hit probe url count maxGap m' r ms h1 hp]
        exact ih (r ++ [⟨m' + 1, url (m' + 1)⟩]) 0 (by simp; omega)
      | false =>
        by_cases hg : maxGap ≤ ms + 1
        · simp [scanLoopN_succ_missStop probe url count maxGap m' r ms h1 hp hg, h]
        · rw [scanLoopN_succ_missCont probe url count maxGap m' r ms h1 hp (by omega)]
          exact ih r (ms + 1) h
    · simp [scanLoopN_stop probe url count maxGap (m' + 1) r ms (by omega), h]

theorem scan_count_ext (probe : Nat → Bool) (url : Nat → String) (count count' maxGap : Nat)
    (m : Nat) (r : List Frame) (ms : Nat) (hcc : count ≤ count')
    (h : (scanLoopN probe url count maxGap m r ms).1.length < count) :
    scanLoopN probe url count' maxGap m r ms = scanLoopN probe url count maxGap m r ms := by
  induction m generalizing r ms with
  | zero =>
    have hr : r.length < count := lt_of_le_of_lt (scan_acc_le probe url count maxGap 0 r ms) h
    have hr' : r.length < count' := by omega
    cases hp : probe 0 with
    | true =>
      rw [scanLoopN_zero_hit probe url count maxGap r ms hr hp,
          scanLoopN_zero_hit probe url count' maxGap r ms hr' hp]
    | false =>
      by_cases hg : maxGap ≤ ms + 1
      · rw [scanLoopN_zero_missStop probe url count maxGap r ms hr hp hg,
            scanLoopN_zero_missStop probe url count' maxGap r ms hr' hp hg]
      · rw [scanLoopN_zero_missCont probe url count maxGap r ms hr hp (by omega),
            scanLoopN_zero_missCont probe url count' maxGap r ms hr' hp (by omega)]
  | succ m' ih =>
    have hr : r.length < count :=
      lt_of_le_of_lt (scan_acc_le probe url count maxGap (m' + 1) r ms) h
    have hr' : r.length < count' := by omega
    cases hp : probe (m' + 1) with
    | true =>
      rw [scanLoopN_succ_hit probe url count maxGap m' r ms hr hp] at h ⊢
      rw [scanLoopN_succ_hit probe url count' maxGap m' r ms hr' hp]
      rw [ih _ _ (by simpa using h)]
    | false =>
      by_cases hg : maxGap ≤ ms + 1
      · rw [scanLoopN_succ_missStop probe url count maxGap m' r ms hr hp hg,
            scanLoopN_succ_missStop probe url count' maxGap m' r ms hr' hp hg]
      · rw [scanLoopN_succ_missCont probe url count maxGap m' r ms hr hp (by omega)] at h ⊢
        rw [scanLoopN_succ_missCont probe url count' maxGap m' r ms hr' hp (by omega)]
        rw [ih _ _ (by simpa using h)]

theorem scan_probed_le (probe : Nat → Bool) (url : Nat → String) (count maxGap : Nat)
    (m : Nat) (r : List Frame) (ms : Nat) :
    ∀ x ∈ (scanLoopN probe url count maxGap m r ms).2, x ≤ m := by
  induction m generalizing r ms with
  | zero =>
    by_cases h1 : r.length < count
    · cases hp : probe 0 with
      | true => simp [scanLoopN_zero_hit probe url count maxGap r ms h1 hp]
      | false =>
        by_cases hg : maxGap ≤ ms + 1
        · simp [scanLoopN_zero_missStop probe url count maxGap r ms h1 hp hg]
        · simp [scanLoopN_zero_missCont probe url count maxGap r ms h1 hp (by omega)]
    · simp [scanLoopN_stop probe url count maxGap 0 r ms (by omega)]
  | succ m' ih =>
    by_cases h1 : r.length < count
    · cases hp : probe (m' + 1) with
      | true =>
        rw [scanLoopN_succ_hit probe url count maxGap m' r ms h1 hp]
        intro x hx
        rcases List.mem_cons.mp hx with h | h
        · omega
        · have := ih (r ++ [⟨m' + 1, url (m' + 1)⟩]) 0 x h
          omega
      | false =>
        by_cases hg : maxGap ≤ ms + 1
        · simp [scanLoopN_succ_missStop probe url count maxGap m' r ms h1 hp hg]
        · rw [scanLoopN_succ_missCont probe url count maxGap m' r ms h1 hp (by omega)]
          intro x hx
          rcases List.mem_cons.mp hx with h | h
          · omega
          · have := ih r (ms + 1) x h
            omega
    · simp [scanLoopN_stop probe url count maxGap (m' + 1) r ms (by omega)]

theorem scan_probed_len (probe : Nat → Bool) (url : Nat → String) (count maxGap : Nat)
    (m : Nat) (r : List Frame) (ms : Nat) (hms : ms < maxGap) (hr : r.length < count) :
    (scanLoopN probe url count maxGap m r ms).2.length
      ≤ (count - r.length) * maxGap - ms := by
  induction m generalizing r ms with
  | zero =>
    have hbig : maxGap ≤ (count - r.length) * maxGap :=
      Nat.le_mul_of_pos_left maxGap (by omega)
    cases hp : probe 0 with
    | true =>
      rw [scanLoopN_zero_hit probe url count maxGap r ms hr hp]
      simp
      omega
    | false =>
      by_cases hg : maxGap ≤ ms + 1
      · rw [scanLoopN_zero_missStop probe url count maxGap r ms hr hp hg]
        simp
        omega
      · rw [scanLoopN_zero_missCont probe url count maxGap r ms hr hp (by omega)]
        simp
        omega
  | succ m' ih =>
    have hbig : maxGap ≤ (count - r.length) * maxGap :=
      Nat.le_mul_of_pos_left maxGap (by omega)
    cases hp : probe (m' + 1) with
    | true =>
      rw [scanLoopN_succ_hit probe url count maxGap m' r ms hr hp]
      by_cases h2 : r.length + 1 < count
      · have e : (count - r.length) * maxGap
            = (count - (r.length + 1)) * maxGap + maxGap := by
          have e1 : count - r.length = (count - (r.length + 1)) + 1 := by omega
          rw [e1, Nat.succ_mul]
        have := ih (r ++ [⟨m' + 1, url (m' + 1)⟩]) 0 (by omega) (by simpa using h2)
        simp only [List.length_append, List.length_cons] at this ⊢
        simp at this
        omega
      · have hfull : count ≤ (r ++ [(⟨m' + 1, url (m' + 1)⟩ : Frame)]).length := by
          simp; omega
        rw [scanLoopN_stop probe url count maxGap m' (r ++ [(⟨m' + 1, url (m' + 1)⟩ : Frame)]) 0 hfull]
        simp
        omega
    | false =>
      by_cases hg : maxGap ≤ ms + 1
      · rw [scanLoopN_succ_missStop probe url count maxGap m' r ms hr hp hg]
        simp
        omega
      · rw [scanLoopN_succ_missCont probe url count maxGap m' r ms hr hp (by omega)]
        have := ih r (ms + 1) (by omega) hr
        simp only [List.length_cons]
        omega

theorem scan_sorted (probe : Nat → Bool) (url : Nat → String) (count maxGap : Nat)
    (m : Nat) (r : List Frame) (ms : Nat)
    (hr : r.Pairwise (fun a b => b.minute < a.minute))
    (hub : ∀ f ∈ r, m < f.minute) :
    (scanLoopN probe url count maxGap m r ms).1.Pairwise
      (fun a b => b.minute < a.minute) := by
  induction m generalizing r ms with
  | zero =>
    by_cases h1 : r.length < count
    · cases hp : probe 0 with
      | true =>
        rw [scanLoopN_zero_hit probe url count maxGap r ms h1 hp]
        rw [List.pairwise_append]
        refine ⟨hr, by simp, ?_⟩
        intro a ha b hb
        simp at hb
        subst hb
        simpa using hub a ha
      | false =>
        by_cases hg : maxGap ≤ ms + 1
        · simpa [scanLoopN_zero_missStop probe url count maxGap r ms h1 hp hg] using hr
        · simpa [scanLoopN_zero_missCont probe url count maxGap r ms h1 hp (by omega)]
            using hr
    · simpa [scanLoopN_stop probe url count maxGap 0 r ms (by omega)] using hr
  | succ m' ih =>
    by_cases h1 : r.length < count
    · cases hp : probe (m' + 1) with
      | true =>
        rw [scanLoopN_succ_hit probe url count maxGap m' r ms h1 hp]
        apply ih
        · rw [List.pairwise_append]
          refine ⟨hr, by simp, ?_⟩
          intro a ha b hb
          simp at hb
          subst hb
          simpa using hub a ha
        · intro f hf
          rcases List.mem_append.mp hf with h | h
          · have := hub f h
            omega
          · simp at h
            subst h
            simp
      | false =>
        by_cases hg : maxGap ≤ ms + 1
        · simpa [scanLoopN_succ_missStop probe url count maxGap m' r ms h1 hp hg] using hr
        · rw [scanLoopN_succ_missCont probe url count maxGap m' r ms h1 hp (by omega)]
          apply ih _ _ hr
          intro f hf
          have := hub f hf
          omega
    · simpa [scanLoopN_stop probe url count maxGap (m' + 1) r ms (by omega)] using hr

theorem findRecentImages_sorted (printer : PrinterId) (startMinute : Int)
    (count maxGap : Nat) (outcomes : Nat → ProbeOutcome) :
    (findRecentImages printer startMinute count maxGap outcomes).Pairwise
      (fun a b => a.minute < b.minute) := by
  rw [findRecentImages, findRecentImagesPair]
  split_ifs with h
  · simp
  · rw [List.pairwise_reverse]
    exact scan_sorted _ _ count maxGap startMinute.toNat [] 0 (by simp) (by simp)

theorem sortByMinute_sorted (l : List Frame) :
    (sortByMinute l).Pairwise (fun a b : Frame => a.minute ≤ b.minute) :=
  List.sorted_insertionSort (fun a b : Frame => a.minute ≤ b.minute) l

theorem sortByMinute_perm (l : List Frame) :
    List.Perm (sortByMinute l) l :=
  List.perm_insertionSort (fun a b : Frame => a.minute ≤ b.minute) l

theorem mergeFrames_strictAsc (prev images : List Frame)
    (hp : StrictAsc prev) (hi : StrictAsc images) :
    StrictAsc (mergeFrames prev images false) := by
  rw [mergeFrames]
  split_ifs with h1 h2
  · exact hp
  · have hadd : StrictAsc (additions prev images) := hi.filter _
    have hne : (prev ++ additions prev images).Pairwise
        (fun a b => a.minute ≠ b.minute) := by
      rw [List.pairwise_append]
      refine ⟨hp.imp (fun h => Nat.ne_of_lt h), hadd.imp (fun h => Nat.ne_of_lt h), ?_⟩
      intro a ha b hb
      have hbmem : b.minute ∉ prev.map Frame.minute := by
        have := List.of_mem_filter hb
        simpa using this
      intro he
      exact hbmem (he ▸ List.mem_map_of_mem Frame.minute ha)
    have hsorted := sortByMinute_sorted (prev ++ additions prev images)
    have hneq' : (sortByMinute (prev ++ additions prev images)).Pairwise
        (fun a b => a.minute ≠ b.minute) :=
      ((sortByMinute_perm (prev ++ additions prev images)).pairwise_iff
        (fun h => h.symm)).mpr hne
    exact (hsorted.and hneq').imp (fun h => lt_of_le_of_ne h.1 h.2)
  · exact hi

/-- Any number of refresh merges of discovery results onto a
strictly-ascending store keeps the store strictly ascending. -/
theorem foldMerge_strictAsc (printer : PrinterId) (count maxGap : Nat)
    (init : List Frame) (hinit : StrictAsc init)
    (refreshes : List ((Nat → ProbeOutcome) × Int)) :
    StrictAsc (refreshes.foldl
      (fun acc pr => mergeFrames acc (findRecentImages printer pr.2 count maxGap pr.1) false)
      init) := by
  induction refreshes generalizing init with
  | nil => exact hinit
  | cons p ps ih =>
    exact ih _ (mergeFrames_strictAsc _ _ hinit
      (findRecentImages_sorted printer p.2 count maxGap p.1))

/-!  Claim theorems. -/

/-- C1: with probes hitting exactly at 95, 94 and 90 and `maxGap = 3`,
a scan started at 95 (with room for at least 3 frames) collects 95 and 94,
probes exactly 95, 94, 93, 92, 91 — terminating on the three consecutive
misses without ever probing 90 — and returns the ascending two-frame
sequence [94, 95]. -/
theorem c1_gap_termination (count : Nat) (h : 3 ≤ count) :
    findRecentImages .h2c 95 count 3 c1Outcomes
        = [⟨94, getImageUrl .h2c 94⟩, ⟨95, getImageUrl .h2c 95⟩]
    ∧ probedMinutes .h2c 95 count 3 c1Outcomes = [95, 94, 93, 92, 91]
    ∧ 90 ∉ probedMinutes .h2c 95 count 3 c1Outcomes := by
  have key : findRecentImagesPair .h2c 95 count 3 c1Outcomes
      = ([⟨95, getImageUrl .h2c 95⟩, ⟨94, getImageUrl .h2c 94⟩],
         [95, 94, 93, 92, 91]) := by
    rw [findRecentImagesPair, if_neg (by decide)]
    have hext := scan_count_ext (fun m => imageExists (c1Outcomes m))
      (getImageUrl .h2c) 3 count 3 ((95 : Int).toNat) [] 0 h (by decide)
    rw [hext]
    decide
  refine ⟨?_, ?_, ?_⟩
  · rw [findRecentImages, key]
    decide
  · rw [probedMinutes, key]
  · rw [probedMinutes, key]
    decide

/-- Witness for C1 at the source's default `count = 60`. -/
theorem c1_gap_termination_witness :
    3 ≤ 60
    ∧ (findRecentImages .h2c 95 60 3 c1Outcomes
          = [⟨94, getImageUrl .h2c 94⟩, ⟨95, getImageUrl .h2c 95⟩]
      ∧ probedMinutes .h2c 95 60 3 c1Outcomes = [95, 94, 93, 92, 91]
      ∧ 90 ∉ probedMinutes .h2c 95 60 3 c1Outcomes) :=
  ⟨by decide, c1_gap_termination 60 (by decide)⟩

/-- C2 counterexample: with `maxCount = 3`, `maxGap = 2`, `startOrdinal = 5`
and alternating hit/miss outcomes, the scan probes 6 candidate ordinals
(5, 4, 3, 2, 1, 0), which exceeds `maxCount + maxGap = 5` — each hit resets
the consecutive-miss counter, so misses can repeat between hits. -/
theorem c2_probe_budget_counterexample :
    ¬ ((probedMinutes .h2c 5 3 2 c2AlternatingOutcomes).length ≤ 3 + 2) := by
  decide

/-- C2 (amended): `discover` returns at most `maxCount` frames and probes
only ordinals at or below `startOrdinal`, but the number of probed
candidates is bounded by `maxCount * maxGap` (not `maxCount + maxGap`):
up to `maxGap - 1` misses can precede every hit. -/
theorem c2_probe_budget (printer : PrinterId) (start : Int) (count maxGap : Nat)
    (outcomes : Nat → ProbeOutcome) (hc : 1 ≤ count) (hg : 1 ≤ maxGap) :
    (findRecentImages printer start count maxGap outcomes).length ≤ count
    ∧ (probedMinutes printer start count maxGap outcomes).length ≤ count * maxGap
    ∧ ∀ x ∈ probedMinutes printer start count maxGap outcomes, (x : Int) ≤ start := by
  rw [findRecentImages, probedMinutes, findRecentImagesPair]
  split_ifs with hneg
  · refine ⟨by simp, by simp, by simp⟩
  · refine ⟨?_, ?_, ?_⟩
    · simpa using scan_len_le _ _ count maxGap start.toNat [] 0 (by simp)
    · have := scan_probed_len (fun m => imageExists (outcomes m)) (getImageUrl printer)
        count maxGap start.toNat [] 0 (by omega) (by simpa using hc)
      simpa using this
    · intro x hx
      have hle := scan_probed_le (fun m => imageExists (outcomes m)) (getImageUrl printer)
        count maxGap start.toNat [] 0 x hx
      omega

/-- Witness for C2 (amended) at the counterexample's own inputs. -/
theorem c2_probe_budget_witness :
    (1 ≤ 3 ∧ 1 ≤ 2)
    ∧ ((findRecentImages .h2c 5 3 2 c2AlternatingOutcomes).length ≤ 3
      ∧ (probedMinutes .h2c 5 3 2 c2AlternatingOutcomes).length ≤ 3 * 2
      ∧ ∀ x ∈ probedMinutes .h2c 5 3 2 c2AlternatingOutcomes, (x : Int) ≤ 5) :=
  ⟨⟨by decide, by decide⟩,
   c2_probe_budget .h2c 5 3 2 c2AlternatingOutcomes (by decide) (by decide)⟩

/-- C3: every discovery scan returns a strictly-ascending, duplicate-free
sequence, and the store stays strictly ascending (hence duplicate-free)
after any number of refresh/merge cycles applied to an initially
discovered sequence. -/
theorem c3_strict_ascending (printer : PrinterId) (count maxGap : Nat)
    (oc0 : Nat → ProbeOutcome) (s0 : Int)
    (refreshes : List ((Nat → ProbeOutcome) × Int)) :
    StrictAsc (findRecentImages printer s0 count maxGap oc0)
    ∧ StrictAsc (refreshes.foldl
        (fun acc pr => mergeFrames acc (findRecentImages printer pr.2 count maxGap pr.1) false)
        (findRecentImages printer s0 count maxGap oc0)) :=
  ⟨findRecentImages_sorted printer s0 count maxGap oc0,
   foldMerge_strictAsc printer count maxGap _
     (findRecentImages_sorted printer s0 count maxGap oc0) refreshes⟩

/-- C10: a scan started at a negative ordinal issues no probes and returns
the empty sequence (the loop guard `m >= 0` fails immediately). -/
theorem c10_negative_start (printer : PrinterId) (count maxGap : Nat)
    (outcomes : Nat → ProbeOutcome) (start : Int) (h : start < 0) :
    findRecentImages printer start count maxGap outcomes = []
    ∧ probedMinutes printer start count maxGap outcomes = [] := by
  rw [findRecentImages, probedMinutes, findRecentImagesPair, if_pos h]
  exact ⟨rfl, rfl⟩

/-- Witness for C10 at `startOrdinal = -1`. -/
theorem c10_negative_start_witness :
    (-1 : Int) < 0
    ∧ (findRecentImages .h2d (-1) 60 10 c1Outcomes = []
      ∧ probedMinutes .h2d (-1) 60 10 c1Outcomes = []) :=
  ⟨by decide, c10_negative_start .h2d 60 10 c1Outcomes (-1) (by decide)⟩

/-- C5: merging a (strictly ascending) discovery result into the store
returns the very store value `prev` when every discovered ordinal is
already present (`additions = []`, so no update signal is emitted), and
otherwise returns the ascending sort of the old sequence concatenated with
exactly the discovered frames whose ordinals were not already present. -/
theorem c5_merge_characterisation (prev images : List Frame)
    (hi : StrictAsc images) :
    (additions prev images = [] → mergeFrames prev images false = prev)
    ∧ (additions prev images ≠ []
        → mergeFrames prev images false
            = sortByMinute (prev ++ additions prev images)) := by
  have hnil : prev = [] → additions prev images = images := by
    intro hp
    subst hp
    simp [additions]
  constructor
  · intro hadd
    rw [mergeFrames]
    split_ifs with h1 h2
    · rfl
    · exact absurd (by rw [hadd]; rfl) h2
    · have hp : prev = [] := by
        rcases prev with _ | ⟨a, l⟩
        · rfl
        · exact absurd ⟨rfl, by simp⟩ h1
      subst hp
      rw [hnil rfl] at hadd
      exact hadd
  · intro hadd
    rw [mergeFrames]
    split_ifs with h1 h2
    · exact absurd (List.length_eq_zero.mp h2) hadd
    · rfl
    · have hp : prev = [] := by
        rcases prev with _ | ⟨a, l⟩
        · rfl
        · exact absurd ⟨rfl, by simp⟩ h1
      subst hp
      have hs : List.Sorted (fun a b : Frame => a.minute ≤ b.minute) images :=
        hi.imp fun h => Nat.le_of_lt h
      rw [hnil rfl, List.nil_append, sortByMinute]
      exact hs.insertionSort_eq.symm

/-- Witness for C5 at the spec's merge-correctness example: the store
[10, 12] merged with the discovery [11, 12, 13] gains exactly 11 and 13. -/
theorem c5_merge_characterisation_witness :
    StrictAsc c5Images
    ∧ additions c5Prev c5Images ≠ []
    ∧ mergeFrames c5Prev c5Images false
        = sortByMinute (c5Prev ++ additions c5Prev c5Images) :=
  ⟨by decide, by decide,
   (c5_merge_characterisation c5Prev c5Images (by decide)).2 (by decide)⟩

/-- C6: a probe that errors (network failure, non-2xx, malformed response)
behaves identically to a probe reporting non-existence: replacing an
erroring outcome at any minute by `notFound` changes neither the returned
frames nor the probe trace (so it counts toward `maxGap` the same way),
and every non-`loaded` outcome resolves `imageExists` to `false` — the
probe promise never rejects, so `discover` never throws. -/
theorem c6_error_equals_miss (printer : PrinterId) (start : Int)
    (count maxGap : Nat) (outcomes : Nat → ProbeOutcome) (m : Nat)
    (herr : outcomes m ≠ ProbeOutcome.loaded) :
    findRecentImages printer start count maxGap
        (fun x => if x = m then ProbeOutcome.notFound else outcomes x)
      = findRecentImages printer start count maxGap outcomes
    ∧ probedMinutes printer start count maxGap
        (fun x => if x = m then ProbeOutcome.notFound else outcomes x)
      = probedMinutes printer start count maxGap outcomes
    ∧ imageExists (outcomes m) = false := by
  have hexists : imageExists (outcomes m) = false := by
    cases h : outcomes m with
    | loaded => exact absurd h herr
    | notFound => rfl
    | networkFailure => rfl
    | malformed => rfl
  have hf : (fun x => imageExists (if x = m then ProbeOutcome.notFound else outcomes x))
      = fun x => imageExists (outcomes x) := by
    funext x
    by_cases hx : x = m
    · subst hx
      rw [if_pos rfl, hexists]
      rfl
    · rw [if_neg hx]
  have hpair : findRecentImagesPair printer start count maxGap
      (fun x => if x = m then ProbeOutcome.notFound else outcomes x)
      = findRecentImagesPair printer start count maxGap outcomes := by
    simp only [findRecentImagesPair]
    rw [hf]
  exact ⟨by rw [findRecentImages, findRecentImages, hpair],
         by rw [probedMinutes, probedMinutes, hpair], hexists⟩

/-- Witness for C6: a network failure at minute 2 within an otherwise
concrete environment. -/
theorem c6_error_equals_miss_witness :
    c6Outcomes 2 ≠ ProbeOutcome.loaded
    ∧ (findRecentImages .h2c 5 60 10
          (fun x => if x = 2 then ProbeOutcome.notFound else c6Outcomes x)
        = findRecentImages .h2c 5 60 10 c6Outcomes
      ∧ probedMinutes .h2c 5 60 10
          (fun x => if x = 2 then ProbeOutcome.notFound else c6Outcomes x)
        = probedMinutes .h2c 5 60 10 c6Outcomes
      ∧ imageExists (c6Outcomes 2) = false) :=
  ⟨by decide, c6_error_equals_miss .h2c 5 60 10 c6Outcomes 2 (by decide)⟩

/-- C7: whenever the store is non-empty, the live-loop window holds exactly
`min LOOP_COUNT frames.length` frames, and both the displayed index
(`safeIndex`, which reduces the loop position modulo the window length)
and the advance-timer step stay inside `[0, min LOOP_COUNT length - 1]`
for every current loop position — in particular immediately after a merge
changes the sequence length. -/
theorem c7_loop_index_bounds (frames : List Frame) (h : frames ≠ []) :
    (loopWindow frames).length = min LOOP_COUNT frames.length
    ∧ (∀ i, safeIndex i (loopWindow frames) < min LOOP_COUNT frames.length)
    ∧ (∀ i, loopAdvance i (loopWindow frames).length
        < min LOOP_COUNT frames.length) := by
  have hpos : 0 < frames.length := List.length_pos.mpr h
  have hlen : (loopWindow frames).length = min LOOP_COUNT frames.length := by
    rw [loopWindow, List.length_drop]
    omega
  have hwpos : 0 < (loopWindow frames).length := by
    rw [hlen]
    simp [LOOP_COUNT]
    omega
  refine ⟨hlen, ?_, ?_⟩
  · intro i
    rw [safeIndex, if_pos hwpos, ← hlen]
    exact Nat.mod_lt i hwpos
  · intro i
    rw [loopAdvance, ← hlen]
    exact Nat.mod_lt _ hwpos

/-- Witness for C7 on a two-frame store. -/
theorem c7_loop_index_bounds_witness :
    c7Frames ≠ []
    ∧ ((loopWindow c7Frames).length = min LOOP_COUNT c7Frames.length
      ∧ (∀ i, safeIndex i (loopWindow c7Frames)
          < min LOOP_COUNT c7Frames.length)
      ∧ (∀ i, loopAdvance i (loopWindow c7Frames).length
          < min LOOP_COUNT c7Frames.length)) :=
  ⟨by decide, c7_loop_index_bounds c7Frames (by decide)⟩

/-- C8: the listing entries h2c-3.jpg, h2c-1.jpg, h2d-2.jpg group into
printer h2c with frame numbers [1, 3] (ascending) and printer h2d with
[2], the printers emitted in name order — both on the frame-number level
and on the final URL-projected result. -/
theorem c8_listing_grouping :
    buildPrinters c8Children = [⟨"h2c", ["u1", "u3"]⟩, ⟨"h2d", ["u2"]⟩]
    ∧ (collectGroups c8Children).map (fun g => (g.1, (sortByNum g.2).map Prod.fst))
        = [("h2c", [1, 3]), ("h2d", [2])] := by
  decide

/-- C9: a listing entry whose name matches the pattern but which carries
neither download-URL field contributes nothing: the result over a listing
containing it equals the result over the listing without it (it is skipped
by the `if (!downloadUrl) continue` guard, raising no error). -/
theorem c9_missing_url_excluded (pre post : List OneDriveChild)
    (c : OneDriveChild) (hmatch : (parseName c.name).isSome = true)
    (hcontent : c.contentDownloadUrl = none) (hgraph : c.graphDownloadUrl = none) :
    buildPrinters (pre ++ c :: post) = buildPrinters (pre ++ post) := by
  have hurl : downloadUrl c = "" := by
    rw [downloadUrl, hcontent, hgraph]
    rfl
  have hgroups : collectGroups (pre ++ c :: post) = collectGroups (pre ++ post) := by
    rw [collectGroups, collectGroups, List.foldl_append, List.foldl_append,
        List.foldl_cons]
    rcases ho : parseName c.name with _ | pn
    · simp [ho]
    · simp [ho, hurl]
  rw [buildPrinters, buildPrinters, hgroups]

/-- Witness for C9: dropping the URL-less entry h2c-7.jpg from a two-entry
listing leaves the discovery result unchanged. -/
theorem c9_missing_url_excluded_witness :
    (parseName c9Child.name).isSome = true
    ∧ buildPrinters ([⟨"h2c-1.jpg", some "u1", none⟩] ++ c9Child :: [])
        = buildPrinters ([⟨"h2c-1.jpg", some "u1", none⟩] ++ []) :=
  ⟨by decide,
   c9_missing_url_excluded [⟨"h2c-1.jpg", some "u1", none⟩] [] c9Child
     (by decide) rfl rfl⟩

/-- C4 counterexample: the live view's `loadImages` checks no cancellation
flag, so a discovery call that resolves after `stopFeed` still merges its
result into the frame store — here the stopped store [5] becomes [5, 6],
contradicting "the frame store is left unchanged". -/
theorem c4_stale_discovery_counterexample :
    ¬ ((resolveLoad (stopFeed c4State) [⟨6, "u6"⟩]).frames
        = (stopFeed c4State).frames) := by
  decide

/-- C4 (amended): after a view is stopped, no timer owned by it fires even
once a late discovery resolves (`stopFeed` clears both intervals and the
resolution re-arms neither, since `live` and `playing` are `false`), and
the listing-based hook's cancellation flag does make an unmounted fetch
resolution a no-op on its store; but the probe-scan view's frame store
itself may still change when the in-flight call resolves. -/
theorem c4_stop_cancellation (s : ViewState) (images : List Frame)
    (st : List PrinterImages) (children : List OneDriveChild) :
    (resolveLoad (stopFeed s) images).refreshTimer = false
    ∧ (resolveLoad (stopFeed s) images).advanceTimer = false
    ∧ resolveListing true st children = st :=
  ⟨rfl, rfl, rfl⟩
